import Mathlib

/-!
Verification of the schwifty IBAN module (src/schwifty/iban.py) against its
natural-language specification.

Strings are modelled as `List Char`.  The model is ASCII-faithful: the Python
regex class `\d` also accepts non-ASCII Unicode digits, which never occur in
IBAN data; here it is modelled as `Char.isDigit` (the ASCII digits 0-9).
Fallible Python code (raised exceptions) is modelled with `Option`/`Except`.
-/

namespace Schwifty

/-- Errors raised by the Python code (all are `ValueError`s with distinct
messages; one constructor per raise site). -/
inductive IbanError where
  | unknownCountry
  | invalidCharacters
  | invalidChecksum
  | invalidLength
  | invalidFormat
  | codeTooLong
  | numerifyError
  | specRegexError
deriving DecidableEq

/-- The alphabet `string.digits + string.ascii_uppercase` from iban.py. -/
def _alphabet : List Char := "0123456789ABCDEFGHIJKLMNOPQRSTUVWXYZ".data

/-- Python `_alphabet.index(c)`: zero-based index, `ValueError` (none) when the
character is absent. -/
def alphaIndex (c : Char) : Option Nat :=
  _alphabet.findIdx? (fun x => x == c)

/-- Decimal representation `str(i)` for the values produced by `alphaIndex`
(all are below 36, hence at most two decimal digits). -/
def decRepr (i : Nat) : List Char :=
  if i < 10 then [Nat.digitChar i] else [Nat.digitChar (i / 10), Nat.digitChar (i % 10)]

/-- Parsing a string of decimal digits as `int(...)` does. -/
def parseDecimal (ds : List Char) : Nat :=
  ds.foldl (fun a c => a * 10 + (c.toNat - 48)) 0

/-- Alphabet index of every character in turn; the first failure (the
`ValueError` of `.index`) aborts. -/
def alphaIndices : List Char → Option (List Nat)
  | [] => some []
  | c :: t =>
    match alphaIndex c, alphaIndices t with
    | some i, some l => some (i :: l)
    | _, _ => none

/-- iban.py `numerify`: map each character to its alphabet index, concatenate
the decimal representations and parse the result as an integer.  `none` models
the `ValueError` from `.index` on a foreign character, and the `ValueError`
of `int` applied to the empty string. -/
def numerify (s : List Char) : Option Nat :=
  match alphaIndices s with
  | none => none
  | some idxs =>
    let ds := (idxs.map decRepr).flatten
    if ds.isEmpty then none else some (parseDecimal ds)

/-- Python format spec `:2d` applied by `_calc_checksum_digits`: minimum field
width 2, left-padded with SPACES (a zero-pad would be `:02d`). -/
def formatWidth2 (n : Nat) : List Char :=
  let ds := decRepr n
  List.replicate (2 - ds.length) ' ' ++ ds

/-- iban.py `IBAN._calc_checksum_digits`, as a function of the `bban` and
`country_code` components it reads. -/
def calc_checksum_digits (bban cc : List Char) : Option (List Char) :=
  match numerify (bban ++ cc) with
  | none => none
  | some n => some (formatWidth2 (98 - (n * 100) % 97))

/-- Tokens produced by scanning a BBAN structure pattern with the regex
`(\d+)(!)?([nace])` as `re.sub` does: matched clauses, and the unmatched
text kept verbatim (one literal character per token). -/
inductive Tok where
  | clause (count : Nat) (bang : Bool) (tchar : Char)
  | lit (c : Char)
deriving DecidableEq

/-- The four keys of `_spec_to_re`. -/
def isTypeChar (c : Char) : Bool :=
  c == 'n' || c == 'a' || c == 'c' || c == 'e'

/-- Decimal value of a digit run (the `count` group of the clause regex). -/
def decToNat (ds : List Char) : Nat :=
  ds.foldl (fun a c => a * 10 + (c.toNat - 48)) 0

/-- Left-to-right scan of the pattern implementing the leftmost-match
semantics of `re.sub(r'(\d+)(!)?([nace])', convert, bban_spec)`.  `pend` holds
the digit run read so far.  Backtracking inside `\d+` can never help (no digit
is `!` or a type character), so greedy digit runs are faithful. -/
def scanAux : List Char → List Char → List Tok
  | [], pend => pend.map Tok.lit
  | [c], pend =>
    if c.isDigit then (pend ++ [c]).map Tok.lit
    else if isTypeChar c && !pend.isEmpty then [Tok.clause (decToNat pend) false c]
    else pend.map Tok.lit ++ [Tok.lit c]
  | c :: t :: rest, pend =>
    if c.isDigit then scanAux (t :: rest) (pend ++ [c])
    else if isTypeChar c && !pend.isEmpty then
      Tok.clause (decToNat pend) false c :: scanAux (t :: rest) []
    else if c == '!' && !pend.isEmpty then
      if isTypeChar t then Tok.clause (decToNat pend) true t :: scanAux rest []
      else pend.map Tok.lit ++ Tok.lit '!' :: scanAux (t :: rest) []
    else pend.map Tok.lit ++ Tok.lit c :: scanAux (t :: rest) []

/-- Token list of a BBAN structure pattern. -/
def scanSpec (bspec : List Char) : List Tok := scanAux bspec []

/-- Star-free regular expressions: the fragment produced for compiled BBAN
patterns (character class, empty, concatenation, alternation). -/
inductive RE where
  | cls (p : Char → Bool)
  | eps
  | seq (r1 r2 : RE)
  | alt (r1 r2 : RE)

/-- `_spec_to_re`: the character class of each type character.  As in the
whole file, `\d` is modelled by the ASCII `Char.isDigit`. -/
def classOf : Char → (Char → Bool)
  | 'n' => Char.isDigit
  | 'a' => Char.isUpper
  | 'c' => Char.isAlphanum
  | 'e' => fun c => c == ' '
  | _ => fun _ => false

/-- Exactly `n` repetitions of class `p`: the regex `p` followed by the
quantifier with a single count. -/
def repExact (p : Char → Bool) : Nat → RE
  | 0 => .eps
  | n + 1 => .seq (.cls p) (repExact p n)

/-- Up to `n` optional repetitions of class `p`. -/
def optUpto (p : Char → Bool) : Nat → RE
  | 0 => .eps
  | n + 1 => .alt .eps (.seq (.cls p) (optUpto p n))

/-- The characters that are special in Python regex source: a single
character outside this set, placed in a pattern, matches itself literally.
The two brace characters are written by code point. -/
def isReMeta (c : Char) : Bool :=
  c == '.' || c == '^' || c == '$' || c == '*' || c == '+' || c == '?' ||
  c == '\\' || c == '|' || c == '(' || c == ')' || c == '[' || c == ']' ||
  c == Char.ofNat 123 || c == Char.ofNat 125

/-- Regex of a single token.  A `!` clause becomes an exact repetition, a
plain clause the range quantifier from 1 to count (which `re.compile` rejects
when the count is 0: min repeat greater than max repeat), and passthrough
text a literal character.  The program feeds passthrough text verbatim into
the regex SOURCE, so the literal modelling of the `lit` case is faithful
exactly for characters with `isReMeta c = false` (a metacharacter would
instead change the regex meaning or make `re.compile` fail); theorems about
passthrough therefore carry that hypothesis, and the patterns of the spec's
clause language produce no `lit` token at all. -/
def tokRE : Tok → Option RE
  | .lit c => some (.cls (fun x => x == c))
  | .clause n true t => some (repExact (classOf t) n)
  | .clause n false t =>
    if n = 0 then none else some (.seq (.cls (classOf t)) (optUpto (classOf t) (n - 1)))

/-- Concatenation of the token regexes. -/
def tokensToRE : List Tok → Option RE
  | [] => some .eps
  | t :: ts =>
    match tokRE t, tokensToRE ts with
    | some r1, some r2 => some (.seq r1 r2)
    | _, _ => none

/-- `add_bban_regex`: scan the pattern and build the regex that iban.py
compiles as `re.compile('^' + converted + '$')` (the anchors are applied by
`reFullMatch` below). -/
def compileBBAN (bspec : List Char) : Option RE :=
  tokensToRE (scanSpec bspec)

/-- Backtracking matcher in continuation style for the star-free fragment:
`reMatchCont r s k` is true when some prefix of `s` belongs to the language
of `r` and the continuation `k` accepts the corresponding suffix. -/
def reMatchCont : RE → List Char → (List Char → Bool) → Bool
  | .cls p, s, k =>
    match s with
    | [] => false
    | c :: cs => p c && k cs
  | .eps, s, k => k s
  | .seq r1 r2, s, k => reMatchCont r1 s (fun s2 => reMatchCont r2 s2 k)
  | .alt r1 r2, s, k => reMatchCont r1 s k || reMatchCont r2 s k

/-- Python end anchor: `$` matches at the end of the string or just before a
newline that ends the string. -/
def dollarEnd (u : List Char) : Bool :=
  u.isEmpty || u == ['\n']

/-- Truthiness of `re.compile('^' + r + '$').match(s)`. -/
def reFullMatch (r : RE) (s : List Char) : Bool :=
  reMatchCont r s dollarEnd

/-- The compiled matcher of a BBAN structure pattern applied to a string, as
`spec['regex'].match(bban)` does.  When compilation fails (`re.error`) there
is no matcher; `false` is returned only as a placeholder, no claim uses it. -/
def bbanMatcher (bspec s : List Char) : Bool :=
  match compileBBAN bspec with
  | some r => reFullMatch r s
  | none => false

/-- Nullability of a star-free regex (whether it accepts the empty string). -/
def nullB : RE → Bool
  | .cls _ => false
  | .eps => true
  | .seq r1 r2 => nullB r1 && nullB r2
  | .alt r1 r2 => nullB r1 || nullB r2

/-- A token that is a clause requiring at least one repetition: a `!` clause
with positive count, or a plain clause (whose quantifier starts at 1). -/
def minOneTok : Tok → Bool
  | .clause n true _ => decide (1 ≤ n)
  | .clause _ false _ => true
  | .lit _ => false

/-- Full match of the pattern `[A-Z]{2}\d{2}[A-Z]*` of `validate_characters`
against an entire string. -/
def charsFullMatch : List Char → Bool
  | a :: b :: c :: d :: rest =>
    a.isUpper && b.isUpper && c.isDigit && d.isDigit && rest.all Char.isUpper
  | _ => false

/-- Truthiness of an unanchored `re.match`: the pattern (given as a full-string
matcher `m`) matches some prefix of `s`. -/
def reMatchHead (m : List Char → Bool) (s : List Char) : Bool :=
  (List.range (s.length + 1)).any (fun n => m (s.take n))

/-- A country entry of the IBAN specification table. -/
structure IbanSpec where
  bban_spec : List Char
  iban_length : Nat
  bank_code_pos : Nat × Nat
  branch_code_pos : Nat × Nat
  account_code_pos : Nat × Nat

/-- Modelled from the spec: the registry entry for country DE (the registry
data of the repository is not under src/).  Section 8 of the spec gives
iban_length 22, pattern 8!n10!n, bank_code positions (0,8) and account_code
positions (8,18); DE has no branch component, modelled as the empty
range (0,0). -/
def de_spec : IbanSpec :=
  ⟨"8!n10!n".data, 22, (0, 8), (0, 0), (8, 18)⟩

/-- Modelled from the spec: `registry.get('iban')[country_code]`, a read-only
mapping from country code to specification, populated here with the one
country the spec documents.  `none` models the `Unknown country-code`
ValueError of `_get_iban_spec`. -/
def get_iban_spec (cc : List Char) : Option IbanSpec :=
  if cc = "DE".data then some de_spec else none

/-- iban.py `code_length`: difference of the two entries of a position
range. -/
def code_length (pos : Nat × Nat) : Nat :=
  pos.2 - pos.1

/-- Modelled from the spec: `Base._get_component` (schwifty/common.py is not
under src/), the Python slice `self._code[start:end]` with an optional end. -/
def get_component (code : List Char) (start : Nat) (stop : Option Nat) : List Char :=
  match stop with
  | some e => (code.take e).drop start
  | none => code.drop start

/-- `bban`: characters 4 to the end of the compact string. -/
def bban (code : List Char) : List Char := get_component code 4 none

/-- `country_code`: characters 0-2 of the compact string. -/
def country_code (code : List Char) : List Char := get_component code 0 (some 2)

/-- `checksum_digits`: characters 2-4 of the compact string. -/
def checksum_digits (code : List Char) : List Char := get_component code 2 (some 4)

/-- Modelled from the spec: the `Base` text normalization (common.py is not
under src/): uppercasing and whitespace removal. -/
def base_normalize (s : List Char) : List Char :=
  (s.filter (fun c => !c.isWhitespace)).map Char.toUpper

/-- iban.py `IBAN._parse`: when the checksum digits are the placeholder `??`,
rebuild the stored code as country code, computed checksum digits, BBAN. -/
def iban_parse (code : List Char) : Except IbanError (List Char) :=
  if checksum_digits code = ['?', '?'] then
    match calc_checksum_digits (bban code) (country_code code) with
    | some cd => .ok (country_code code ++ cd ++ bban code)
    | none => .error .numerifyError
  else .ok code

/-- `IBAN.validate_characters`: raise unless
`re.match(r'[A-Z]{2}\d{2}[A-Z]*', compact)` is truthy.  The source pattern has
no end anchor and its tail is `[A-Z]*`, not `[A-Z0-9]*`. -/
def validate_characters (code : List Char) : Except IbanError Unit :=
  if reMatchHead charsFullMatch code then .ok () else .error .invalidCharacters

/-- `IBAN.validate_length`: the spec lookup may raise `Unknown country-code`;
otherwise compare `iban_length` with the compact length. -/
def validate_length (code : List Char) : Except IbanError Unit :=
  match get_iban_spec (country_code code) with
  | none => .error .unknownCountry
  | some spec =>
    if spec.iban_length = code.length then .ok () else .error .invalidLength

/-- `IBAN.validate_format`: the precompiled `spec['regex']` applied to the
BBAN. -/
def validate_format (code : List Char) : Except IbanError Unit :=
  match get_iban_spec (country_code code) with
  | none => .error .unknownCountry
  | some spec =>
    match compileBBAN spec.bban_spec with
    | none => .error .specRegexError
    | some r => if reFullMatch r (bban code) then .ok () else .error .invalidFormat

/-- `IBAN.numeric`: `numerify(self.bban + self.compact[:4])`. -/
def iban_numeric (code : List Char) : Option Nat :=
  numerify (bban code ++ code.take 4)

/-- `IBAN.validate_checksum`: raise unless `numeric % 97 == 1` (the alphabet
lookup inside `numerify` itself may raise). -/
def validate_checksum (code : List Char) : Except IbanError Unit :=
  match iban_numeric code with
  | none => .error .numerifyError
  | some n => if n % 97 = 1 then .ok () else .error .invalidChecksum

/-- `IBAN.validate`: the four checks in their fixed source order; the first
raise aborts the chain. -/
def validate (code : List Char) : Except IbanError Unit :=
  match validate_characters code with
  | .error e => .error e
  | .ok _ =>
    match validate_length code with
    | .error e => .error e
    | .ok _ =>
      match validate_format code with
      | .error e => .error e
      | .ok _ => validate_checksum code

/-- `IBAN.__init__`: normalize (Base), parse (placeholder checksum), and
validate unless `allow_invalid`. -/
def iban_new (iban : List Char) (allow_invalid : Bool) : Except IbanError (List Char) :=
  match iban_parse (base_normalize iban) with
  | .error e => .error e
  | .ok code =>
    if allow_invalid then .ok code
    else
      match validate code with
      | .error e => .error e
      | .ok _ => .ok code

/-- Python `str.rjust(width, fill)`. -/
def rjust (width : Nat) (fill : Char) (s : List Char) : List Char :=
  List.replicate (width - s.length) fill ++ s

/-- The skeleton-building stage of `IBAN.generate` (lines 52-67): spec lookup,
length checks against the bank-plus-branch and account widths, zero left
padding, and the skeleton with placeholder checksum digits. -/
def generate_skeleton (cc bank_code account_code : List Char) :
    Except IbanError (List Char) :=
  match get_iban_spec cc with
  | none => .error .unknownCountry
  | some spec =>
    let bank_and_branch_code_length :=
      code_length spec.bank_code_pos + code_length spec.branch_code_pos
    let account_code_length := code_length spec.account_code_pos
    if bank_and_branch_code_length < bank_code.length then .error .codeTooLong
    else if account_code_length < account_code.length then .error .codeTooLong
    else
      .ok (cc ++ ['?', '?'] ++ rjust bank_and_branch_code_length '0' bank_code
            ++ rjust account_code_length '0' account_code)

/-- `IBAN.generate`: build the skeleton, then construct (which computes the
checksum digits and runs full validation). -/
def iban_generate (cc bank_code account_code : List Char) :
    Except IbanError (List Char) :=
  match generate_skeleton cc bank_code account_code with
  | .error e => .error e
  | .ok sk => iban_new sk false

/-- Following the words of claim C3 (the spec's anchored regex
`[A-Z]{2}` then `\d{2}` then `[A-Z0-9]*` against the entire string): first
two characters uppercase letters, next two digits, every remaining character
an uppercase letter or a digit. -/
def charsClaimSpec : List Char → Bool
  | a :: b :: c :: d :: rest =>
    a.isUpper && b.isUpper && c.isDigit && d.isDigit &&
      rest.all (fun x => x.isUpper || x.isDigit)
  | _ => false

/-! ## Helper lemmas -/

/-- Characterization of the truthiness of the unanchored character check
regex: some prefix matches iff the string has at least four characters with
the first two uppercase letters and the next two digits (the trailing
optional star never constrains an unanchored match). -/
theorem reMatchHead_chars_iff (s : List Char) :
    reMatchHead charsFullMatch s = true ↔
      ∃ a b c d t, s = a :: b :: c :: d :: t ∧ a.isUpper = true ∧ b.isUpper = true ∧
        c.isDigit = true ∧ d.isDigit = true := by
  constructor
  · intro h
    simp only [reMatchHead, List.any_eq_true, List.mem_range] at h
    obtain ⟨n, _, hm⟩ := h
    rcases hu : s.take n with _ | ⟨a, _ | ⟨b, _ | ⟨c, _ | ⟨d, t⟩⟩⟩⟩
    · rw [hu] at hm; exact absurd hm (by simp [charsFullMatch])
    · rw [hu] at hm; exact absurd hm (by simp [charsFullMatch])
    · rw [hu] at hm; exact absurd hm (by simp [charsFullMatch])
    · rw [hu] at hm; exact absurd hm (by simp [charsFullMatch])
    · rw [hu] at hm
      simp only [charsFullMatch, Bool.and_eq_true] at hm
      obtain ⟨⟨⟨⟨ha, hb⟩, hc⟩, hd⟩, -⟩ := hm
      refine ⟨a, b, c, d, t ++ s.drop n, ?_, ha, hb, hc, hd⟩
      conv_lhs => rw [← List.take_append_drop n s]
      rw [hu]
      simp
  · rintro ⟨a, b, c, d, t, rfl, ha, hb, hc, hd⟩
    simp only [reMatchHead, List.any_eq_true, List.mem_range]
    refine ⟨4, by simp only [List.length_cons]; omega, ?_⟩
    simp [charsFullMatch, ha, hb, hc, hd]

/-- Exact repetition clauses consume exactly their count of characters. -/
theorem reMatchCont_repExact (p : Char → Bool) :
    ∀ (n : Nat) (s : List Char) (k : List Char → Bool),
      reMatchCont (repExact p n) s k = true ↔
        n ≤ s.length ∧ (s.take n).all p = true ∧ k (s.drop n) = true
  | 0, s, k => by simp [repExact, reMatchCont]
  | n + 1, [], k => by simp [repExact, reMatchCont]
  | n + 1, c :: cs, k => by
    have ih := reMatchCont_repExact p n cs k
    simp only [repExact, reMatchCont, Bool.and_eq_true, List.take_succ_cons,
      List.drop_succ_cons, List.all_cons, List.length_cons] at *
    constructor
    · rintro ⟨h1, h2⟩
      obtain ⟨h3, h4, h5⟩ := ih.mp h2
      exact ⟨by omega, ⟨h1, h4⟩, h5⟩
    · rintro ⟨h1, ⟨h2, h3⟩, h4⟩
      exact ⟨h2, ih.mpr ⟨by omega, h3, h4⟩⟩

/-- Range clauses consume between zero and their count of characters. -/
theorem reMatchCont_optUpto (p : Char → Bool) :
    ∀ (n : Nat) (s : List Char) (k : List Char → Bool),
      reMatchCont (optUpto p n) s k = true ↔
        ∃ j, j ≤ n ∧ j ≤ s.length ∧ (s.take j).all p = true ∧ k (s.drop j) = true
  | 0, s, k => by
    simp only [optUpto, reMatchCont]
    constructor
    · intro h
      exact ⟨0, Nat.le_refl 0, Nat.zero_le _, by simp, by simpa using h⟩
    · rintro ⟨j, hj, _, _, h⟩
      obtain rfl : j = 0 := Nat.le_zero.mp hj
      simpa using h
  | n + 1, [], k => by
    simp only [optUpto, reMatchCont, Bool.or_eq_true]
    constructor
    · rintro (h | h)
      · exact ⟨0, Nat.zero_le _, Nat.le_refl 0, by simp, by simpa using h⟩
      · simp at h
    · rintro ⟨j, _, hj0, _, h⟩
      obtain rfl : j = 0 := Nat.le_zero.mp (by simpa using hj0)
      exact Or.inl (by simpa using h)
  | n + 1, c :: cs, k => by
    have ih := reMatchCont_optUpto p n cs k
    simp only [optUpto, reMatchCont, Bool.or_eq_true, Bool.and_eq_true]
    constructor
    · rintro (h | ⟨hpc, h⟩)
      · exact ⟨0, Nat.zero_le _, Nat.zero_le _, by simp, by simpa using h⟩
      · obtain ⟨j, hj, hjlen, hall, hk⟩ := ih.mp h
        refine ⟨j + 1, by omega, by simp [List.length_cons]; omega, ?_, ?_⟩
        · simp [List.take_succ_cons, List.all_cons, hpc, hall]
        · simpa [List.drop_succ_cons] using hk
    · rintro ⟨j, hj, hjlen, hall, hk⟩
      match j with
      | 0 => exact Or.inl (by simpa using hk)
      | j' + 1 =>
        simp only [List.take_succ_cons, List.all_cons, Bool.and_eq_true] at hall
        refine Or.inr ⟨hall.1, ih.mpr ⟨j', by omega, ?_, hall.2, ?_⟩⟩
        · simp [List.length_cons] at hjlen; omega
        · simpa [List.drop_succ_cons] using hk

/-- On the empty string the matcher reduces to nullability. -/
theorem reMatchCont_nil : ∀ (r : RE) (k : List Char → Bool),
    reMatchCont r [] k = (nullB r && k [])
  | .cls _, _ => by simp [reMatchCont, nullB]
  | .eps, _ => by simp [reMatchCont, nullB]
  | .seq r1 r2, k => by
    have h1 := reMatchCont_nil r1 (fun s2 => reMatchCont r2 s2 k)
    have h2 := reMatchCont_nil r2 k
    simp only [reMatchCont, nullB]
    rw [h1]
    simp only [h2, Bool.and_assoc]
  | .alt r1 r2, k => by
    have h1 := reMatchCont_nil r1 k
    have h2 := reMatchCont_nil r2 k
    simp only [reMatchCont, nullB, h1, h2]
    cases nullB r1 <;> cases nullB r2 <;> cases k [] <;> rfl

/-- Python end anchor characterization. -/
theorem dollarEnd_iff (u : List Char) :
    dollarEnd u = true ↔ u = [] ∨ u = ['\n'] := by
  simp [dollarEnd, List.isEmpty_iff]

/-- The regex of a clause requiring at least one repetition is not
nullable. -/
theorem tokRE_minOne_nullB (t : Tok) (r : RE)
    (h : tokRE t = some r) (hmin : minOneTok t = true) : nullB r = false := by
  match t with
  | .lit c =>
    simp only [tokRE, Option.some.injEq] at h
    subst h
    rfl
  | .clause n true tc =>
    simp only [minOneTok, decide_eq_true_eq] at hmin
    simp only [tokRE, Option.some.injEq] at h
    subst h
    obtain ⟨m, rfl⟩ : ∃ m, n = m + 1 := ⟨n - 1, by omega⟩
    simp [repExact, nullB]
  | .clause n false tc =>
    simp only [tokRE] at h
    by_cases hn : n = 0
    · rw [if_pos hn] at h
      cases h
    · rw [if_neg hn] at h
      obtain rfl := Option.some.inj h
      simp [nullB]

/-- A compiled pattern containing a clause requiring at least one repetition
is not nullable. -/
theorem tokensToRE_nullB : ∀ (toks : List Tok) (r : RE),
    tokensToRE toks = some r → (∃ t ∈ toks, minOneTok t = true) → nullB r = false
  | [], r, _, hex => by simp at hex
  | t :: ts, r, h, hex => by
    simp only [tokensToRE] at h
    cases h1 : tokRE t with
    | none => rw [h1] at h; cases h
    | some r1 =>
      cases h2 : tokensToRE ts with
      | none => rw [h1, h2] at h; cases h
      | some r2 =>
        rw [h1, h2] at h
        obtain rfl := Option.some.inj h
        obtain ⟨tk, htk, hmin⟩ := hex
        rcases List.mem_cons.mp htk with rfl | hmem
        · simp [nullB, tokRE_minOne_nullB tk r1 h1 hmin]
        · simp [nullB, tokensToRE_nullB ts r2 h2 ⟨tk, hmem, hmin⟩]

/-- Anchored full match of a single exact-repetition clause: exactly `n`
characters of the class, allowing the Python trailing-newline variant of the
end anchor. -/
theorem reFullMatch_exact (p : Char → Bool) (n : Nat) (s : List Char) :
    reFullMatch (.seq (repExact p n) .eps) s = true ↔
      ((s.length = n ∧ s.all p = true) ∨
        ∃ t, s = t ++ ['\n'] ∧ t.length = n ∧ t.all p = true) := by
  unfold reFullMatch
  simp only [reMatchCont]
  rw [reMatchCont_repExact]
  constructor
  · rintro ⟨hle, hall, hd⟩
    rcases (dollarEnd_iff _).mp hd with hnil | hnl
    · left
      have hlen : s.length ≤ n := by
        have := congrArg List.length hnil
        simp [List.length_drop] at this
        omega
      have heq : s.length = n := Nat.le_antisymm hlen hle
      have htake : s.take n = s := List.take_of_length_le hlen
      rw [htake] at hall
      exact ⟨heq, hall⟩
    · right
      refine ⟨s.take n, ?_, ?_, hall⟩
      · conv_lhs => rw [← List.take_append_drop n s]
        rw [hnl]
      · simp [List.length_take]; omega
  · rintro (⟨hlen, hall⟩ | ⟨t, rfl, hlen, hall⟩)
    · refine ⟨by omega, ?_, ?_⟩
      · rw [List.take_of_length_le (by omega)]
        exact hall
      · rw [List.drop_eq_nil_of_le (by omega)]
        simp [dollarEnd]
    · refine ⟨by simp [List.length_append]; omega, ?_, ?_⟩
      · rw [← hlen, List.take_left]
        exact hall
      · rw [← hlen, List.drop_left]
        simp [dollarEnd]

/-- Anchored full match of a single range clause with minimum one: between 1
and `m + 1` characters of the class, allowing the Python trailing-newline
variant of the end anchor. -/
theorem reFullMatch_upto (p : Char → Bool) (m : Nat) (s : List Char) :
    reFullMatch (.seq (.seq (.cls p) (optUpto p m)) .eps) s = true ↔
      ((1 ≤ s.length ∧ s.length ≤ m + 1 ∧ s.all p = true) ∨
        ∃ t, s = t ++ ['\n'] ∧ 1 ≤ t.length ∧ t.length ≤ m + 1 ∧ t.all p = true) := by
  unfold reFullMatch
  match s with
  | [] =>
    simp only [reMatchCont]
    constructor
    · intro h
      cases h
    · rintro (⟨h1, _⟩ | ⟨t, ht, _⟩)
      · simp at h1
      · exact absurd ht.symm (List.append_ne_nil_of_right_ne_nil t (by simp))
  | c :: cs =>
    simp only [reMatchCont, Bool.and_eq_true]
    constructor
    · rintro ⟨hpc, h⟩
      obtain ⟨j, hj, hjlen, hall, hd⟩ := (reMatchCont_optUpto p m cs dollarEnd).mp h
      rcases (dollarEnd_iff _).mp hd with hnil | hnl
      · left
        have hlen : cs.length ≤ j := by
          have := congrArg List.length hnil
          simp [List.length_drop] at this
          omega
        obtain rfl : j = cs.length := Nat.le_antisymm hjlen hlen
        rw [List.take_of_length_le (Nat.le_refl _)] at hall
        refine ⟨by simp, by simp [List.length_cons]; omega, ?_⟩
        simp [List.all_cons, hpc, hall]
      · right
        refine ⟨c :: cs.take j, ?_, by simp, ?_, ?_⟩
        · have : cs = cs.take j ++ ['\n'] := by
            conv_lhs => rw [← List.take_append_drop j cs]
            rw [hnl]
          rw [List.cons_append, ← this]
        · simp [List.length_cons, List.length_take]; omega
        · simp [List.all_cons, hpc, hall]
    · rintro (⟨_, hlen, hall⟩ | ⟨t, ht, h1, hlen, hall⟩)
      · simp only [List.all_cons, Bool.and_eq_true] at hall
        refine ⟨hall.1, (reMatchCont_optUpto p m cs dollarEnd).mpr
          ⟨cs.length, ?_, Nat.le_refl _, ?_, ?_⟩⟩
        · simp [List.length_cons] at hlen; omega
        · rw [List.take_of_length_le (Nat.le_refl _)]
          exact hall.2
        · rw [List.drop_eq_nil_of_le (Nat.le_refl _)]
          simp [dollarEnd]
      · rcases t with _ | ⟨t0, t'⟩
        · simp at h1
        · rw [List.cons_append] at ht
          have hc0 : c = t0 := (List.cons.inj ht).1
          have hcs : cs = t' ++ ['\n'] := (List.cons.inj ht).2
          simp only [List.all_cons, Bool.and_eq_true] at hall
          refine ⟨by rw [hc0]; exact hall.1,
            (reMatchCont_optUpto p m cs dollarEnd).mpr ⟨t'.length, ?_, ?_, ?_, ?_⟩⟩
          · simp only [List.length_cons] at hlen; omega
          · rw [hcs]
            simp only [List.length_append, List.length_cons, List.length_nil]
            omega
          · rw [hcs, List.take_left]
            exact hall.2
          · rw [hcs, List.drop_left]
            simp [dollarEnd]

/-- The alphabet lookup of every character succeeds exactly when each single
lookup does. -/
theorem alphaIndices_isSome : ∀ (s : List Char),
    (∀ c ∈ s, (alphaIndex c).isSome = true) → (alphaIndices s).isSome = true
  | [], _ => by simp [alphaIndices]
  | c :: t, h => by
    have hc := h c (by simp)
    have ht := alphaIndices_isSome t (fun x hx => h x (by simp [hx]))
    obtain ⟨i, hi⟩ := Option.isSome_iff_exists.mp hc
    obtain ⟨l, hl⟩ := Option.isSome_iff_exists.mp ht
    simp [alphaIndices, hi, hl]

/-- The decimal representation of an alphabet index is never empty. -/
theorem decRepr_ne_nil (i : Nat) : decRepr i ≠ [] := by
  unfold decRepr
  split <;> simp

/-- `numerify` succeeds on nonempty strings over the alphabet. -/
theorem numerify_isSome : ∀ (s : List Char), s ≠ [] →
    (∀ c ∈ s, (alphaIndex c).isSome = true) → (numerify s).isSome = true := by
  intro s hne h
  match s, hne with
  | c :: t, _ =>
    unfold numerify
    have hc := h c (by simp)
    have ht := alphaIndices_isSome t (fun x hx => h x (by simp [hx]))
    obtain ⟨i, hi⟩ := Option.isSome_iff_exists.mp hc
    obtain ⟨l, hl⟩ := Option.isSome_iff_exists.mp ht
    rw [show alphaIndices (c :: t) = some (i :: l) by simp [alphaIndices, hi, hl]]
    have hds : decRepr i ++ (l.map decRepr).flatten ≠ [] := by
      intro happ
      exact decRepr_ne_nil i (List.append_eq_nil.mp happ).1
    simp [List.isEmpty_iff, hds]

/-- Inversion of a successful validation: the character and length checks both
passed. -/
theorem validate_ok_parts {code : List Char} (h : validate code = .ok ()) :
    validate_characters code = .ok () ∧ validate_length code = .ok () := by
  unfold validate at h
  cases hc : validate_characters code with
  | error e => simp only [hc] at h; exact Except.noConfusion h
  | ok u =>
    simp only [hc] at h
    cases hl : validate_length code with
    | error e => simp only [hl] at h; exact Except.noConfusion h
    | ok v => cases u; cases v; exact ⟨rfl, rfl⟩

/-- Inversion of a successful length check: the country is the one of the
modelled table and the compact length equals its `iban_length`. -/
theorem validate_length_ok_parts {code : List Char}
    (h : validate_length code = .ok ()) :
    country_code code = "DE".data ∧ code.length = 22 := by
  unfold validate_length at h
  cases hg : get_iban_spec (country_code code) with
  | none => simp only [hg] at h; exact Except.noConfusion h
  | some spec =>
    simp only [hg] at h
    have hde : country_code code = "DE".data ∧ spec = de_spec := by
      unfold get_iban_spec at hg
      by_cases hq : country_code code = "DE".data
      · rw [if_pos hq] at hg
        exact ⟨hq, (Option.some.inj hg).symm⟩
      · rw [if_neg hq] at hg
        exact Option.noConfusion hg
    refine ⟨hde.1, ?_⟩
    by_cases hq : spec.iban_length = code.length
    · rw [hde.2] at hq
      exact hq.symm
    · rw [if_neg hq] at h
      exact Except.noConfusion h

/-! ## Claims -/

/-- Claim C1 (code_bug): the claim states that `generate` followed by
validation always succeeds for in-range bank and account codes.  The code
space-pads one-digit checksums (format spec `:2d` instead of `:02d`), so
`generate("DE", "0", "37")`, whose checksum value is 7, builds the compact
string `DE 70...37` and validation fails with `InvalidCharacters`. -/
theorem c1_generate_roundtrip_bug :
    iban_generate "DE".data "0".data "37".data = .error .invalidCharacters
    ∧ calc_checksum_digits "000000000000000037".data "DE".data = some [' ', '7'] :=
  ⟨rfl, rfl⟩

/-- Claim C2 (code_bug): the claim states that the checksum-digit computation
always returns exactly 2 ASCII digits, zero-padded.  On bban `60` and country
code `AA` the checksum value is 7 and the code returns a space followed by
`7` (format spec `:2d` pads with spaces, not zeros). -/
theorem c2_checksum_digits_space_padded :
    calc_checksum_digits "60".data "AA".data = some [' ', '7']
    ∧ Char.isDigit ' ' = false :=
  ⟨rfl, rfl⟩

/-- Claim C3 counterexample: the string `AB12!` is accepted by the characters
check of the code although its remainder is not alphanumeric, contradicting
the claimed equivalence with the anchored regex. -/
theorem c3_claim_counterexample :
    validate_characters "AB12!".data = .ok ()
    ∧ charsClaimSpec "AB12!".data = false :=
  ⟨rfl, by decide⟩

/-- Claim C3 (corrected): the source regex has no end anchor and its tail
`[A-Z]*` may match the empty string, so the characters check accepts a string
iff it has at least 4 characters, the first two uppercase letters and the
next two digits; the remaining characters are unconstrained. -/
theorem c3_amended_characters_iff (s : List Char) :
    validate_characters s = .ok () ↔
      ∃ a b c d t, s = a :: b :: c :: d :: t ∧ a.isUpper = true ∧ b.isUpper = true ∧
        c.isDigit = true ∧ d.isDigit = true := by
  rw [← reMatchHead_chars_iff]
  unfold validate_characters
  by_cases h : reMatchHead charsFullMatch s = true
  · simp [h]
  · simp [h]

/-- Claim C3 witness: the amended characterization evaluated at `AB12`. -/
theorem c3_amended_witness : validate_characters "AB12".data = .ok () :=
  (c3_amended_characters_iff "AB12".data).mpr
    ⟨'A', 'B', '1', '2', [], rfl, by decide, by decide, by decide, by decide⟩

/-- Claim C4 counterexample: for the pattern `3x`, whose type character is
not one of the four recognized symbols, compilation succeeds and a matcher is
produced, contradicting the claimed `InvalidSpecification` failure. -/
theorem c4_claim_counterexample : (compileBBAN "3x".data).isSome = true := by
  decide

/-- Claim C4 (corrected): `re.sub` does not validate type characters and no
`InvalidSpecification` error exists: a clause whose type character is
unrecognized is passed through verbatim into the regex source rather than
rejected.  When the passed-through character is not a regex metacharacter,
compilation succeeds and the matcher requires that text literally; a count
of 0 with `!` also compiles (to a zero-repetition clause), while a count of
0 without `!` fails inside `re.compile` as an invalid repeat range, not as
`InvalidSpecification`.  (Metacharacter passthrough behaves as raw regex
source — possibly failing inside `re.compile` — and is outside the modelled
fragment, hence the `isReMeta` hypothesis.) -/
theorem c4_amended_passthrough :
    (∀ c : Char, c.isDigit = false → isTypeChar c = false → isReMeta c = false →
      ∃ r, compileBBAN ['3', c] = some r ∧ reFullMatch r ['3', c] = true)
    ∧ (compileBBAN "0!n".data).isSome = true
    ∧ compileBBAN "0n".data = none := by
  refine ⟨?_, by decide, rfl⟩
  intro c h1 h2 _h3
  have hscan : scanSpec ['3', c] = [Tok.lit '3', Tok.lit c] := by
    simp [scanSpec, scanAux, h1, h2]
  refine ⟨.seq (.cls (fun x => x == '3')) (.seq (.cls (fun x => x == c)) .eps), ?_, ?_⟩
  · rw [compileBBAN, hscan]
    rfl
  · simp [reFullMatch, reMatchCont, dollarEnd]

/-- Claim C4 witness: the amended passthrough behaviour evaluated at the
unrecognized, non-metacharacter type character `x`. -/
theorem c4_amended_witness :
    ∃ r, compileBBAN ['3', 'x'] = some r ∧ reFullMatch r ['3', 'x'] = true :=
  c4_amended_passthrough.1 'x' (by decide) (by decide) (by decide)

/-- Claim C5 counterexample: the compiled matcher for `8!n` also accepts the
9-character string of 8 digits followed by a newline (the Python `$` anchor
matches before a final newline), contradicting the claim that it accepts
exactly the strings of exactly 8 digits. -/
theorem c5_claim_counterexample :
    bbanMatcher "8!n".data "12345678\n".data = true
    ∧ ("12345678\n".data).length = 9 := by
  exact ⟨by decide, by decide⟩

/-- Claim C5 (corrected): each clause matches as claimed, except that the
Python `$` anchor also accepts a single trailing newline: the matcher for
`8!n` accepts exactly the strings of 8 digits, optionally followed by one
newline; `4n` accepts 1 to 4 digits (same newline variant); `3a` accepts 1
to 3 uppercase letters (same newline variant); and every compiled pattern
containing a clause requiring at least one repetition rejects the empty
string. -/
theorem c5_amended_pattern_matchers :
    (∀ s : List Char, bbanMatcher "8!n".data s = true ↔
      ((s.length = 8 ∧ s.all Char.isDigit = true) ∨
        ∃ t, s = t ++ ['\n'] ∧ t.length = 8 ∧ t.all Char.isDigit = true))
    ∧ (∀ s : List Char, bbanMatcher "4n".data s = true ↔
      ((1 ≤ s.length ∧ s.length ≤ 4 ∧ s.all Char.isDigit = true) ∨
        ∃ t, s = t ++ ['\n'] ∧ 1 ≤ t.length ∧ t.length ≤ 4 ∧ t.all Char.isDigit = true))
    ∧ (∀ s : List Char, bbanMatcher "3a".data s = true ↔
      ((1 ≤ s.length ∧ s.length ≤ 3 ∧ s.all Char.isUpper = true) ∨
        ∃ t, s = t ++ ['\n'] ∧ 1 ≤ t.length ∧ t.length ≤ 3 ∧ t.all Char.isUpper = true))
    ∧ (∀ bspec : List Char, (compileBBAN bspec).isSome = true →
        (∃ t ∈ scanSpec bspec, minOneTok t = true) → bbanMatcher bspec [] = false) := by
  refine ⟨?_, ?_, ?_, ?_⟩
  · intro s
    have h8 : compileBBAN "8!n".data = some (.seq (repExact Char.isDigit 8) .eps) := rfl
    simp only [bbanMatcher, h8]
    exact reFullMatch_exact Char.isDigit 8 s
  · intro s
    have h4 : compileBBAN "4n".data
        = some (.seq (.seq (.cls Char.isDigit) (optUpto Char.isDigit 3)) .eps) := rfl
    simp only [bbanMatcher, h4]
    exact reFullMatch_upto Char.isDigit 3 s
  · intro s
    have h3 : compileBBAN "3a".data
        = some (.seq (.seq (.cls Char.isUpper) (optUpto Char.isUpper 2)) .eps) := rfl
    simp only [bbanMatcher, h3]
    exact reFullMatch_upto Char.isUpper 2 s
  · intro bspec hs hex
    obtain ⟨r, hr⟩ := Option.isSome_iff_exists.mp hs
    unfold compileBBAN at hr
    have hn : nullB r = false := tokensToRE_nullB (scanSpec bspec) r hr hex
    simp only [bbanMatcher, compileBBAN, hr]
    unfold reFullMatch
    rw [reMatchCont_nil, hn]
    rfl

/-- Claim C5 witness: the amended characterizations evaluated on concrete
strings, and the empty-string rejection applied to the pattern `8!n`. -/
theorem c5_amended_witness :
    bbanMatcher "8!n".data "12345678".data = true
    ∧ bbanMatcher "8!n".data [] = false := by
  constructor
  · exact (c5_amended_pattern_matchers.1 "12345678".data).mpr
      (Or.inl ⟨by decide, by decide⟩)
  · exact c5_amended_pattern_matchers.2.2.2 "8!n".data (by decide)
      ⟨Tok.clause 8 true 'n', by decide, by decide⟩

/-- Claim C6 (confirmed): on compact strings over the IBAN alphabet of length
at least 4, the checksum validation succeeds exactly when
`numerify(bban ++ compact take 4)` is congruent to 1 modulo 97 — the input of
`numerify` is the BBAN followed by the first four characters of the compact
string (country code and checksum digits), the ISO 7064 rearrangement. -/
theorem c6_validate_checksum_iff (code : List Char)
    (halpha : ∀ c ∈ code, (alphaIndex c).isSome = true) (hlen : 4 ≤ code.length) :
    validate_checksum code = .ok () ↔
      ∃ n, iban_numeric code = some n ∧ n % 97 = 1 := by
  have hsome : (iban_numeric code).isSome = true := by
    apply numerify_isSome
    · intro happ
      have h2 := (List.append_eq_nil.mp happ).2
      have := congrArg List.length h2
      simp only [List.length_take, List.length_nil] at this
      omega
    · intro c hc
      rcases List.mem_append.mp hc with h | h
      · exact halpha c (List.drop_subset 4 code h)
      · exact halpha c (List.take_subset 4 code h)
  obtain ⟨n, hn⟩ := Option.isSome_iff_exists.mp hsome
  unfold validate_checksum
  simp only [hn]
  by_cases h97 : n % 97 = 1
  · rw [if_pos h97]
    exact ⟨fun _ => ⟨n, rfl, h97⟩, fun _ => rfl⟩
  · rw [if_neg h97]
    constructor
    · intro h
      exact Except.noConfusion h
    · rintro ⟨n2, hn2, h2⟩
      obtain rfl := Option.some.inj hn2
      exact absurd h2 h97

/-- Claim C6 witness: the checksum characterization evaluated on the valid
German IBAN. -/
theorem c6_witness :
    validate_checksum "DE89370400440532013000".data = .ok () ↔
      ∃ n, iban_numeric "DE89370400440532013000".data = some n ∧ n % 97 = 1 :=
  c6_validate_checksum_iff "DE89370400440532013000".data (by decide) (by decide)

/-- Claim C7 (confirmed): for DE the bank-plus-branch width is 8 and the
account width 10; in-range codes produce the skeleton with both codes
left-padded with zeros, a code of exactly the field width is used unpadded,
and codes one character over the width fail with the too-long error. -/
theorem c7_generate_boundaries (bank acc : List Char)
    (hb : bank.length ≤ 8) (ha : acc.length ≤ 10) :
    generate_skeleton "DE".data bank acc =
        .ok ("DE".data ++ ['?', '?'] ++ rjust 8 '0' bank ++ rjust 10 '0' acc)
    ∧ (bank.length = 8 → rjust 8 '0' bank = bank)
    ∧ (acc.length = 10 → rjust 10 '0' acc = acc)
    ∧ (∀ bank9 : List Char, bank9.length = 9 →
        generate_skeleton "DE".data bank9 acc = .error .codeTooLong)
    ∧ (∀ acc11 : List Char, acc11.length = 11 →
        generate_skeleton "DE".data bank acc11 = .error .codeTooLong) := by
  refine ⟨?_, ?_, ?_, ?_, ?_⟩
  · unfold generate_skeleton
    simp only [show get_iban_spec "DE".data = some de_spec from rfl, de_spec,
      code_length, Nat.sub_zero, Nat.add_zero]
    rw [if_neg (show ¬(8 + 0 < bank.length) by omega),
      if_neg (show ¬(10 < acc.length) by omega)]
  · intro h
    simp [rjust, h]
  · intro h
    simp [rjust, h]
  · intro bank9 h9
    unfold generate_skeleton
    simp only [show get_iban_spec "DE".data = some de_spec from rfl, de_spec,
      code_length, Nat.sub_zero, Nat.add_zero]
    rw [if_pos (show 8 + 0 < bank9.length by omega)]
  · intro acc11 h11
    unfold generate_skeleton
    simp only [show get_iban_spec "DE".data = some de_spec from rfl, de_spec,
      code_length, Nat.sub_zero, Nat.add_zero]
    rw [if_neg (show ¬(8 + 0 < bank.length) by omega),
      if_pos (show 10 < acc11.length by omega)]

/-- Claim C7 witness: the boundary behaviour evaluated with a bank code of
exactly the full width and a short account code. -/
theorem c7_witness :
    generate_skeleton "DE".data "12345678".data "123".data =
      .ok ("DE".data ++ ['?', '?'] ++ rjust 8 '0' "12345678".data
            ++ rjust 10 '0' "123".data) :=
  (c7_generate_boundaries "12345678".data "123".data (by decide) (by decide)).1

/-- Claim C8 (confirmed): a literal whose checksum digits are the `??`
placeholder is re-parsed into country code, computed checksum digits, BBAN;
in particular constructing from the German skeleton resolves the checksum to
`89` and yields the original compact value. -/
theorem c8_placeholder_checksum :
    (∀ code : List Char, checksum_digits code = ['?', '?'] →
      ∀ cd, calc_checksum_digits (bban code) (country_code code) = some cd →
        iban_parse code = .ok (country_code code ++ cd ++ bban code))
    ∧ iban_new "DE??370400440532013000".data false = .ok "DE89370400440532013000".data
    ∧ checksum_digits "DE89370400440532013000".data = ['8', '9'] := by
  refine ⟨?_, rfl, by decide⟩
  intro code hq cd hcd
  unfold iban_parse
  rw [if_pos hq, hcd]

/-- Claim C8 witness: the placeholder re-parse applied to the German
skeleton. -/
theorem c8_witness :
    iban_parse "DE??370400440532013000".data =
      .ok (country_code "DE??370400440532013000".data ++ ['8', '9']
            ++ bban "DE??370400440532013000".data) :=
  c8_placeholder_checksum.1 "DE??370400440532013000".data (by decide)
    ['8', '9'] (by decide)

/-- Claim C9 (confirmed): `validate` runs characters, length, format and
checksum in this order, stopping at the first failure; removing the last
character from any compact string that validates leaves the character check
passing and makes the length check the first to fail, so validation reports
`InvalidLength`. -/
theorem c9_truncation_invalid_length (code : List Char)
    (h : validate code = .ok ()) :
    validate code.dropLast = .error .invalidLength := by
  obtain ⟨hchars, hlen⟩ := validate_ok_parts h
  obtain ⟨hccDE, hlen22⟩ := validate_length_ok_parts hlen
  have hm : reMatchHead charsFullMatch code = true := by
    unfold validate_characters at hchars
    by_cases hc : reMatchHead charsFullMatch code = true
    · exact hc
    · rw [if_neg hc] at hchars
      cases hchars
  obtain ⟨a, b, c, d, t, rfl, ha, hb, hc, hd⟩ := (reMatchHead_chars_iff code).mp hm
  rcases t with _ | ⟨t0, t'⟩
  · simp at hlen22
  · have hdrop : (a :: b :: c :: d :: t0 :: t').dropLast
        = a :: b :: c :: d :: (t0 :: t').dropLast := rfl
    rw [hdrop]
    have hm2 : reMatchHead charsFullMatch (a :: b :: c :: d :: (t0 :: t').dropLast) = true :=
      (reMatchHead_chars_iff _).mpr ⟨a, b, c, d, _, rfl, ha, hb, hc, hd⟩
    have hchars2 : validate_characters (a :: b :: c :: d :: (t0 :: t').dropLast) = .ok () := by
      unfold validate_characters
      rw [if_pos hm2]
    have hcc2 : country_code (a :: b :: c :: d :: (t0 :: t').dropLast) = "DE".data := hccDE
    have hlen2 : validate_length (a :: b :: c :: d :: (t0 :: t').dropLast)
        = .error .invalidLength := by
      unfold validate_length
      simp only [show get_iban_spec (country_code (a :: b :: c :: d :: (t0 :: t').dropLast))
            = some de_spec by rw [hcc2]; rfl]
      have hl21 : (a :: b :: c :: d :: (t0 :: t').dropLast).length = 21 := by
        simp only [List.length_cons, List.length_dropLast]
        simp only [List.length_cons] at hlen22
        omega
      have hne : ¬(de_spec.iban_length
          = (a :: b :: c :: d :: (t0 :: t').dropLast).length) := by
        rw [hl21]
        decide
      rw [if_neg hne]
    unfold validate
    simp only [hchars2, hlen2]

/-- Claim C9 witness: truncating the valid German IBAN fails with the length
error. -/
theorem c9_witness :
    validate ("DE89370400440532013000".data.dropLast) = .error .invalidLength :=
  c9_truncation_invalid_length "DE89370400440532013000".data rfl

/-- Claim C10 (confirmed): for compact strings of length at least 4 the
accessors are pure projections: country code is characters 0-2, checksum
digits characters 2-4, BBAN characters 4 to the end, and their concatenation
restores the compact string. -/
theorem c10_component_projections (code : List Char) (_h : 4 ≤ code.length) :
    country_code code ++ checksum_digits code ++ bban code = code
    ∧ country_code code = code.take 2
    ∧ checksum_digits code = (code.take 4).drop 2
    ∧ bban code = code.drop 4 := by
  refine ⟨?_, rfl, rfl, rfl⟩
  show code.take 2 ++ (code.take 4).drop 2 ++ code.drop 4 = code
  conv_lhs => rw [show code.take 2 = (code.take 4).take 2 by simp [List.take_take]]
  rw [List.take_append_drop, List.take_append_drop]

/-- Claim C10 witness: the projection identity evaluated on the valid German
IBAN. -/
theorem c10_witness :
    country_code "DE89370400440532013000".data
        ++ checksum_digits "DE89370400440532013000".data
        ++ bban "DE89370400440532013000".data = "DE89370400440532013000".data :=
  (c10_component_projections "DE89370400440532013000".data (by decide)).1

end Schwifty
